import Mathlib

/-!
Shallow embedding of the resume-matching application `main.py` and proofs about it.

Conventions used throughout:
* Python `float` values are modelled as exact rationals (`ℚ`); `round(x, n)` and the
  `"%.2f"` format are modelled with round-half-to-even on the exact rational, which is
  CPython behaviour for the decimal values arising in this program.
* Python strings are Lean `String`s; the regular expressions of `main.py` are modelled
  directly on `List Char`, with `\d`, `\s`, `\w` read as their ASCII classes (all the
  data this program matches on is ASCII).
* External I/O is abstracted: an uploaded file carries the text that the PDF extractor
  (respectively the DOCX extractor) would yield on its bytes, the spaCy similarity model
  is a parameter of type `String → String → ℚ`, and the success of each `shutil.copy`
  call is an oracle parameter.
-/

namespace ResumeMatcher

/-! ## Character classes (ASCII readings of Python `\d`, `\s`, `\w`) -/

/-- Python `\s` restricted to ASCII: space, tab, newline, carriage return,
vertical tab, form feed. -/
def isSpaceChar (c : Char) : Bool :=
  c = ' ' || c = '\t' || c = '\n' || c = '\r' || c = '\x0b' || c = '\x0c'

/-- Python `\w` restricted to ASCII: letters, digits and underscore. -/
def isWordChar (c : Char) : Bool :=
  c.isAlphanum || c = '_'

/-- Lowercase a string character-wise (Python `str.lower` on ASCII input). -/
def lowerStr (s : String) : String :=
  String.mk (s.data.map Char.toLower)

/-! ## A small backtracking regex engine

Sufficient for the patterns of `find_education`: character classes, literals,
option, alternation, star over a character class, and the word boundary `\b`.
`run` returns every possible end state of a match starting at the head of the
input (the previous character is threaded through for `\b`).  `reSearch`
models `re.search`: it tries every start position, left to right. -/

inductive RE where
  | eps : RE
  | cls : (Char → Bool) → RE
  | many : (Char → Bool) → RE
  | wb : RE
  | seq : RE → RE → RE
  | alt : RE → RE → RE

/-- Is there a word boundary between the previous character and the head of `s`? -/
def atBoundary (prev : Option Char) (s : List Char) : Bool :=
  (match prev with | none => false | some c => isWordChar c)
    != (match s with | [] => false | c :: _ => isWordChar c)

/-- All end states of a greedy star of the class `f`, longest first. -/
def manyEnds (f : Char → Bool) : Option Char → List Char → List (Option Char × List Char)
  | p, [] => [(p, [])]
  | p, c :: t => if f c then manyEnds f (some c) t ++ [(p, c :: t)] else [(p, c :: t)]

/-- All end states of a match of `r` starting at the head of `s`,
given the character `p` preceding `s` (for word boundaries). -/
def RE.run : RE → Option Char → List Char → List (Option Char × List Char)
  | .eps, p, s => [(p, s)]
  | .cls f, _, s =>
      match s with
      | [] => []
      | c :: t => if f c then [(some c, t)] else []
  | .many f, p, s => manyEnds f p s
  | .wb, p, s => if atBoundary p s then [(p, s)] else []
  | .seq a b, p, s => (a.run p s).flatMap fun pr => b.run pr.1 pr.2
  | .alt a b, p, s => a.run p s ++ b.run p s

/-- Does `r` match starting at some position of `s`, given the preceding character `p`? -/
def searchAux (r : RE) (p : Option Char) (s : List Char) : Bool :=
  !(r.run p s).isEmpty ||
    (match s with
     | [] => false
     | c :: t => searchAux r (some c) t)

/-- Model of `re.search(pattern, s)` viewed as a boolean test. -/
def reSearch (r : RE) (s : List Char) : Bool :=
  searchAux r none s

/-- A single literal character. -/
def chr (c : Char) : RE :=
  .cls (· = c)

/-- A literal string. -/
def lit (s : String) : RE :=
  s.data.foldr (fun c r => .seq (chr c) r) .eps

/-- Zero-or-one occurrence (regex `?`). -/
def ropt (r : RE) : RE :=
  .alt r .eps

/-- Sequence of a list of regexes. -/
def seqs (l : List RE) : RE :=
  l.foldr .seq .eps

/-- Regex `\s*`. -/
def ws0 : RE :=
  .many isSpaceChar

/-! ## `find_experience` (main.py lines 92-104)

`re.findall(r'(\d+\.?\d*)\s*\+?\s*years?', text, re.IGNORECASE)` and
`re.findall(r'(\d+)\s*\+?\s*months?', text, re.IGNORECASE)`, scanning
left-to-right for non-overlapping matches.  The matchers below are a
deterministic rendering of the backtracking behaviour of those two patterns:
the only choice point that can matter is whether `\.?` consumes a dot
(`\d+`/`\d*` giving characters back can never help, since the characters
following them in the pattern cannot match a digit). -/

/-- Leading run of ASCII digits. -/
def takeDigits (s : List Char) : List Char × List Char :=
  s.span Char.isDigit

/-- Drop leading whitespace (greedy `\s*`; nothing later can match a space). -/
def dropWs (s : List Char) : List Char :=
  s.dropWhile isSpaceChar

/-- Match a case-insensitive keyword, returning the remainder. -/
def matchKeyword : List Char → List Char → Option (List Char)
  | [], s => some s
  | _, [] => none
  | k :: ks, c :: t => if c.toLower = k then matchKeyword ks t else none

/-- Match the suffix `\s*\+?\s*<kw>s?` of the two experience patterns
(`kw` is `year` or `month`), case-insensitively, returning the remainder. -/
def matchTailExp (kw : List Char) (s : List Char) : Option (List Char) :=
  let s1 := dropWs s
  let s2 := match s1 with
    | '+' :: t => t
    | _ => s1
  let s3 := dropWs s2
  match matchKeyword kw s3 with
  | none => none
  | some r =>
      match r with
      | c :: t => if c.toLower = 's' then some t else some r
      | [] => some r

/-- Match `(\d+\.?\d*)\s*\+?\s*years?` at the head of `s`;
returns the captured number and the remainder after the whole match. -/
def matchYearAt (s : List Char) : Option (List Char × List Char) :=
  let (d1, r1) := takeDigits s
  if d1.isEmpty then none
  else
    match r1 with
    | '.' :: r2 =>
        let (d2, r3) := takeDigits r2
        match matchTailExp "year".data r3 with
        | some rest => some (d1 ++ '.' :: d2, rest)
        | none =>
            match matchTailExp "year".data r1 with
            | some rest => some (d1, rest)
            | none => none
    | _ =>
        match matchTailExp "year".data r1 with
        | some rest => some (d1, rest)
        | none => none

/-- Match `(\d+)\s*\+?\s*months?` at the head of `s`. -/
def matchMonthAt (s : List Char) : Option (List Char × List Char) :=
  let (d1, r1) := takeDigits s
  if d1.isEmpty then none
  else
    match matchTailExp "month".data r1 with
    | some rest => some (d1, rest)
    | none => none

/-- Left-to-right scan collecting non-overlapping matches, as `re.findall` does.
`fuel` bounds the recursion; every successful match consumes at least one
character, so `fuel = s.length` never truncates the scan. -/
def scanWith (matcher : List Char → Option (List Char × List Char)) :
    Nat → List Char → List (List Char)
  | 0, _ => []
  | _, [] => []
  | fuel + 1, s =>
      match matcher s with
      | some (cap, rest) => cap :: scanWith matcher fuel rest
      | none =>
          match s with
          | [] => []
          | _ :: t => scanWith matcher fuel t

/-- All captures of the year pattern in `s`. -/
def scanYears (s : List Char) : List (List Char) :=
  scanWith matchYearAt s.length s

/-- All captures of the month pattern in `s`. -/
def scanMonths (s : List Char) : List (List Char) :=
  scanWith matchMonthAt s.length s

/-- Numeric value of a digit string (captures are guaranteed non-empty digit runs). -/
def digitsToNat (l : List Char) : Nat :=
  l.foldl (fun a c => a * 10 + (c.toNat - 48)) 0

/-- Python `float` applied to a captured group: digits, optionally followed by
a dot and more digits (e.g. `"3"`, `"3."`, `"3.5"`). -/
def ratOfCapture (cs : List Char) : ℚ :=
  let (ip, rest) := cs.span (fun c => c ≠ '.')
  match rest with
  | '.' :: fp => (digitsToNat ip : ℚ) + (digitsToNat fp : ℚ) / 10 ^ fp.length
  | _ => (digitsToNat ip : ℚ)

/-- Python `max` over a list of floats (`0` is never consulted on the
non-empty lists this is applied to). -/
def qmax : List ℚ → ℚ
  | [] => 0
  | x :: xs => xs.foldl max x

/-- Floor of a rational, computed by floor division of numerator by denominator. -/
def ratFloor (q : ℚ) : ℤ :=
  Int.fdiv q.num (q.den : ℤ)

/-- Round-half-to-even to an integer, the rounding mode of CPython's `round`
and string formatting. -/
def rhe (q : ℚ) : ℤ :=
  let f := ratFloor q
  let r := q - (f : ℚ)
  if r < 1 / 2 then f
  else if 1 / 2 < r then f + 1
  else if f % 2 = 0 then f else f + 1

/-- Python `round(x, 1)` on the exact rational value. -/
def round1 (q : ℚ) : ℚ :=
  (rhe (q * 10) : ℚ) / 10

/-- Python `round(x, 3)` on the exact rational value. -/
def round3 (q : ℚ) : ℚ :=
  (rhe (q * 1000) : ℚ) / 1000

/-- main.py `find_experience`: maximum matched years plus maximum matched
months over twelve, rounded to one decimal place. -/
def find_experience (text : String) : ℚ :=
  let year_matches := scanYears text.data
  let month_matches := scanMonths text.data
  round1 ((if year_matches.isEmpty then 0 else qmax (year_matches.map ratOfCapture)) +
    (if month_matches.isEmpty then 0 else qmax (month_matches.map ratOfCapture) / 12))

/-! ## `find_education` (main.py lines 106-134) -/

/-- Pattern `bachelor\s*of\s*technology`. -/
def ugPat1 : RE :=
  seqs [lit "bachelor", ws0, lit "of", ws0, lit "technology"]

/-- Pattern `bachelor\s*of\s*engineering`. -/
def ugPat2 : RE :=
  seqs [lit "bachelor", ws0, lit "of", ws0, lit "engineering"]

/-- Pattern `\b(b\.?e\.?|b\.?tech\.?|b\.?sc\.?|bca|bba)\b`. -/
def ugPat3 : RE :=
  seqs [.wb,
    .alt (seqs [chr 'b', ropt (chr '.'), chr 'e', ropt (chr '.')])
      (.alt (seqs [chr 'b', ropt (chr '.'), lit "tech", ropt (chr '.')])
        (.alt (seqs [chr 'b', ropt (chr '.'), lit "sc", ropt (chr '.')])
          (.alt (lit "bca") (lit "bba")))),
    .wb]

/-- Pattern `\b(bachelor|undergraduate|diploma)\b`. -/
def ugPat4 : RE :=
  seqs [.wb, .alt (lit "bachelor") (.alt (lit "undergraduate") (lit "diploma")), .wb]

/-- Pattern `master\s*of\s*science`. -/
def mastersPat1 : RE :=
  seqs [lit "master", ws0, lit "of", ws0, lit "science"]

/-- Pattern `master\s*of\s*technology`. -/
def mastersPat2 : RE :=
  seqs [lit "master", ws0, lit "of", ws0, lit "technology"]

/-- Pattern `\b(m\.?s\.?|m\.?e\.?|m\.?tech\.?|mca|mba)\b`. -/
def mastersPat3 : RE :=
  seqs [.wb,
    .alt (seqs [chr 'm', ropt (chr '.'), chr 's', ropt (chr '.')])
      (.alt (seqs [chr 'm', ropt (chr '.'), chr 'e', ropt (chr '.')])
        (.alt (seqs [chr 'm', ropt (chr '.'), lit "tech", ropt (chr '.')])
          (.alt (lit "mca") (lit "mba")))),
    .wb]

/-- Pattern `\b(master|postgraduate|pg\s*diploma)\b`. -/
def mastersPat4 : RE :=
  seqs [.wb,
    .alt (lit "master") (.alt (lit "postgraduate") (seqs [lit "pg", ws0, lit "diploma"])),
    .wb]

/-- Pattern `\b(ph\.?d|doctorate|doctoral)\b`. -/
def pgPat1 : RE :=
  seqs [.wb,
    .alt (seqs [lit "ph", ropt (chr '.'), chr 'd']) (.alt (lit "doctorate") (lit "doctoral")),
    .wb]

/-- The `ug_patterns` list of main.py. -/
def ug_patterns : List RE :=
  [ugPat1, ugPat2, ugPat3, ugPat4]

/-- The `masters_patterns` list of main.py. -/
def masters_patterns : List RE :=
  [mastersPat1, mastersPat2, mastersPat3, mastersPat4]

/-- The `pg_patterns` list of main.py. -/
def pg_patterns : List RE :=
  [pgPat1]

/-- Does any undergraduate pattern match the lowercased text? -/
def ugFound (text : String) : Bool :=
  ug_patterns.any fun p => reSearch p (lowerStr text).data

/-- Does any masters pattern match the lowercased text? -/
def mastersFound (text : String) : Bool :=
  masters_patterns.any fun p => reSearch p (lowerStr text).data

/-- Does any doctoral pattern match the lowercased text? -/
def pgFound (text : String) : Bool :=
  pg_patterns.any fun p => reSearch p (lowerStr text).data

/-- main.py `find_education`: the set of labels whose pattern group matches
somewhere in the lowercased text. -/
def find_education (text : String) : Finset String :=
  (if ugFound text then {"UG"} else ∅) ∪
    ((if mastersFound text then {"Masters"} else ∅) ∪
      (if pgFound text then {"PG"} else ∅))

/-! ## `grade_resume_nlp` (main.py lines 136-152)

The spaCy model is abstracted as an optional similarity function
(`None` when `en_core_web_md` failed to load).  The Python function checks
`not requirements_text or not nlp_model` before scoring; acceptance compares
the raw score with the threshold, while the reported score is `round(score, 3)`. -/

/-- The dictionary `{"passed": ..., "similarity_score": ...}` returned by
`grade_resume_nlp`. -/
structure Grade where
  passed : Bool
  similarity_score : ℚ
deriving DecidableEq, Repr

/-- main.py `grade_resume_nlp`.  The Python guard is the single test
`not requirements_text or not nlp_model`; matching on the model first and
then testing the requirements text decides the same condition. -/
def grade_resume_nlp (resume_text requirements_text : String)
    (nlp_model : Option (String → String → ℚ)) (similarity_threshold : ℚ) : Grade :=
  match nlp_model with
  | none => ⟨false, 0⟩
  | some m =>
      if requirements_text = "" then ⟨false, 0⟩
      else
        let score := m resume_text requirements_text
        if similarity_threshold ≤ score then ⟨true, round3 score⟩
        else ⟨false, round3 score⟩

/-! ## Filenames: `allowed_file` and werkzeug's `secure_filename` -/

/-- Characters before the first `'.'` of a list, or `none` if there is no dot.
Applied to a reversed filename this yields the (reversed) extension. -/
def takeUntilDot : List Char → Option (List Char)
  | [] => none
  | c :: t => if c = '.' then some [] else (takeUntilDot t).map (c :: ·)

/-- Python `filename.rsplit('.', 1)[1]`: the text after the last dot,
`none` when the filename contains no dot (where Python raises `IndexError`). -/
def afterLastDot (s : String) : Option String :=
  (takeUntilDot s.data.reverse).map fun l => String.mk l.reverse

/-- main.py `allowed_file`: the filename contains a dot and the lowercased text
after the last dot is `pdf` or `docx`. -/
def allowed_file (filename : String) : Bool :=
  match afterLastDot filename with
  | none => false
  | some ext => lowerStr ext = "pdf" || lowerStr ext = "docx"

/-- Split on runs of whitespace, discarding empty words (Python `str.split()`). -/
def pyWordsAux : List Char → List Char → List (List Char)
  | [], acc => if acc.isEmpty then [] else [acc.reverse]
  | c :: t, acc =>
      if isSpaceChar c then
        if acc.isEmpty then pyWordsAux t [] else acc.reverse :: pyWordsAux t []
      else pyWordsAux t (c :: acc)

/-- Characters kept by werkzeug's `_filename_ascii_strip_re`: `[A-Za-z0-9_.-]`. -/
def sfAllowedChar (c : Char) : Bool :=
  c.isAlphanum || c = '_' || c = '.' || c = '-'

/-- Is the character a dot or an underscore (for `str.strip("._")`)? -/
def isDotOrUnderscore (c : Char) : Bool :=
  c = '.' || c = '_'

/-- Python `s.strip("._")`. -/
def stripDotUnderscore (l : List Char) : List Char :=
  ((l.dropWhile isDotOrUnderscore).reverse.dropWhile isDotOrUnderscore).reverse

/-- werkzeug `secure_filename` on POSIX, for ASCII input: the NFKD/ASCII-encode
step is modelled as dropping non-ASCII characters, `os.sep` (`'/'`) is replaced
by a space, whitespace-separated words are joined with `'_'`, characters outside
`[A-Za-z0-9_.-]` are removed, and leading/trailing `'.'`/`'_'` are stripped. -/
def secure_filename (s : String) : String :=
  let cs := s.data.filter fun c => c.toNat < 128
  let cs := cs.map fun c => if c = '/' then ' ' else c
  let joined := List.intercalate ['_'] (pyWordsAux cs [])
  String.mk (stripDotUnderscore (joined.filter sfAllowedChar))

/-! ## Output naming (main.py lines 421-425) -/

/-- Python `f"{n:06d}"` for a non-negative counter. -/
def padZero6 (n : Nat) : String :=
  let s := toString n
  if s.length < 6 then String.mk (List.replicate (6 - s.length) '0') ++ s else s

/-- Python `f"{q:.2f}"`: the exact rational rendered with two decimal places,
rounding half to even. -/
def fmtScore2 (q : ℚ) : String :=
  let n := rhe (q * 100)
  let sign := if n < 0 then "-" else ""
  let m := n.natAbs
  let frac := m % 100
  sign ++ toString (m / 100) ++ "." ++
    (if frac < 10 then "0" ++ toString frac else toString frac)

/-- Python `f"{counter:06d}_{score:.2f}.{ext}"`. -/
def mkNewName (counter : Nat) (score : ℚ) (ext : String) : String :=
  padZero6 counter ++ "_" ++ fmtScore2 score ++ "." ++ ext

/-! ## The matching pipeline (main.py `index`, lines 361-447)

Per-document I/O is abstracted as follows: an `UploadedFile` records, besides
its client-supplied filename, the text that `extract_text_from_pdf`
(respectively `extract_text_from_docx`) yields on the saved bytes — both
extractors return `""` on failure, which the model needs no separate case for.
`shutil.copy` success is an oracle indexed by the value of `match_counter`
for the copied document.  A dotless secured filename makes
`original_filename.rsplit('.', 1)[1]` raise `IndexError` (main.py line 85);
this is modelled as `Except.error "IndexError"`. -/

/-- An uploaded file: the client filename plus the text each extractor
would produce from its bytes. -/
structure UploadedFile where
  filename : String
  pdfText : String
  docxText : String
deriving DecidableEq, Repr

/-- main.py `extract_text_from_file`, given the (unlowered) extension of the
secured filename: dispatch on the lowercased extension, all other extensions
yield `""`. -/
def extractedText (f : UploadedFile) (ext : String) : String :=
  if lowerStr ext = "pdf" then f.pdfText
  else if lowerStr ext = "docx" then f.docxText
  else ""

/-- Data of a document that passed all filters and the similarity threshold:
the secured filename, its extension, the rounded similarity score, and the
extracted profile. -/
structure AcceptedDoc where
  name : String
  ext : String
  score : ℚ
  experience : ℚ
  education : Finset String
deriving DecidableEq

/-- One entry of the `results` list built by `index`. -/
structure CandidateResult where
  original_filename : String
  new_filename : String
  score : ℚ
  experience : ℚ
  education : List String
deriving DecidableEq, Repr

/-- The body of the `for file in files` loop up to the `passed` test
(main.py lines 400-421): `none` when the document is skipped or rejected,
`error` when the extension lookup on the secured name raises. -/
def processFile (m : String → String → ℚ) (θ : ℚ) (filtersEnabled : Bool)
    (minExperience : ℚ) (requiredEducation : Finset String) (req : String)
    (f : UploadedFile) : Except String (Option AcceptedDoc) :=
  -- The Python guard is `if file and allowed_file(file.filename)`; a FileStorage is
  -- falsy exactly when its filename is empty, and `allowed_file ""` is false, so the
  -- conjunct `file` is redundant and only `allowed_file` is modelled.
  if allowed_file f.filename then
    let name := secure_filename f.filename
    match afterLastDot name with
    | none => .error "IndexError"
    | some ext =>
        let text := extractedText f ext
        if text = "" then .ok none
        else
          let exp := find_experience text
          let edu := find_education text
          if filtersEnabled = true ∧ exp < minExperience then .ok none
          else if filtersEnabled = true ∧ ¬ requiredEducation ⊆ edu then .ok none
          else
            let g := grade_resume_nlp text req (some m) θ
            if g.passed then .ok (some ⟨name, ext, g.similarity_score, exp, edu⟩)
            else .ok none
  else .ok none

/-- Python `sorted(list(candidate_education))`.  `candidate_education` is
always a subset of `{"UG", "Masters", "PG"}`, and these labels are in
ascending code-point order `"Masters" < "PG" < "UG"`, so the sorted list is
determined by the three membership tests. -/
def sortedEducation (edu : Finset String) : List String :=
  (if "Masters" ∈ edu then ["Masters"] else []) ++
    (if "PG" ∈ edu then ["PG"] else []) ++
      (if "UG" ∈ edu then ["UG"] else [])

/-- Flash message of main.py line 432 (the OS reason is not modelled). -/
def copyErrorMsg (name : String) : String :=
  "Could not copy " ++ name

/-- The whole `for file in files` loop: threads `match_counter`, builds each
`CandidateResult` (naming it from the counter), and collects the flash
messages of failed copies.  `copyFail n` tells whether the `shutil.copy` for
the document accepted with counter value `n` fails. -/
def processFiles (m : String → String → ℚ) (θ : ℚ) (filtersEnabled : Bool)
    (minExperience : ℚ) (requiredEducation : Finset String) (req : String)
    (copyFail : Nat → Bool) :
    List UploadedFile → Nat → Except String (List CandidateResult × List String)
  | [], _ => .ok ([], [])
  | f :: fs, counter =>
      match processFile m θ filtersEnabled minExperience requiredEducation req f with
      | .error e => .error e
      | .ok none =>
          processFiles m θ filtersEnabled minExperience requiredEducation req copyFail
            fs counter
      | .ok (some d) =>
          let c := counter + 1
          let r : CandidateResult :=
            { original_filename := d.name
              new_filename := mkNewName c d.score d.ext
              score := d.score
              experience := d.experience
              education := sortedEducation d.education }
          let msgs := if copyFail c then [copyErrorMsg d.name] else []
          match processFiles m θ filtersEnabled minExperience requiredEducation req
              copyFail fs c with
          | .error e => .error e
          | .ok (rs, es) => .ok (r :: rs, msgs ++ es)

/-- The comparison of main.py line 442: `a` may stay before `b` exactly when
`b.score ≤ a.score` (descending by recorded score). -/
def scoreLe (a b : CandidateResult) : Bool :=
  decide (b.score ≤ a.score)

/-- main.py line 442: `sorted(results, key=lambda x: x['score'], reverse=True)` —
a stable descending sort on the recorded score. -/
def rankSort (l : List CandidateResult) : List CandidateResult :=
  l.mergeSort scoreLe

/-! ## Request validation and the full route (main.py lines 361-447) -/

/-- Python `str.strip()` (ASCII whitespace). -/
def pyStrip (s : String) : String :=
  String.mk (((s.data.dropWhile isSpaceChar).reverse.dropWhile isSpaceChar).reverse)

/-- Python `float(s)` on the plain decimal strings the experience field can
hold: optional sign, digits with an optional fractional part, surrounding
whitespace allowed.  (Exponents and `inf`/`nan` are not modelled; the form
field is numeric.)  `none` models `ValueError`. -/
def parseFloat? (s : String) : Option ℚ :=
  let cs := (s.data.dropWhile isSpaceChar).reverse.dropWhile isSpaceChar
  let cs := cs.reverse
  let (sign, cs1) : ℚ × List Char :=
    match cs with
    | '+' :: t => (1, t)
    | '-' :: t => (-1, t)
    | _ => (1, cs)
  let (ip, r1) := takeDigits cs1
  match r1 with
  | [] => if ip.isEmpty then none else some (sign * digitsToNat ip)
  | '.' :: r2 =>
      let (fp, r3) := takeDigits r2
      if ¬ r3.isEmpty then none
      else if ip.isEmpty ∧ fp.isEmpty then none
      else some (sign * ((digitsToNat ip : ℚ) + (digitsToNat fp : ℚ) / 10 ^ fp.length))
  | _ => none

/-- Flash message of main.py line 382. -/
def noResumesMsg : String :=
  "No resumes selected for uploading."

/-- Flash message of main.py line 385. -/
def emptyJDMsg : String :=
  "Job description cannot be empty."

/-- Flash message of main.py line 393. -/
def invalidNumberMsg : String :=
  "Please enter a valid number for experience."

/-- The POST form data of the route (the `threshold` field is taken already
converted to a rational; its `float(...)` conversion is outside the claims). -/
structure FormInput where
  files : List UploadedFile
  requirements : String
  threshold : ℚ
  criteria_toggle : String
  experience_str : String
  education : Finset String

/-- main.py lines 388-394: the minimum-experience value, or the flash message
of the `ValueError` branch.  The value is `0` whenever filters are disabled
or the field is empty. -/
def computeMinExperience (form : FormInput) : Except String ℚ :=
  if form.criteria_toggle = "on" then
    if form.experience_str = "" then .ok 0
    else
      match parseFloat? form.experience_str with
      | some v => .ok v
      | none => .error invalidNumberMsg
  else .ok 0

/-- The distinguishable outcomes of a POST to `/`: the model-missing page,
a flash-and-redirect on invalid input, or the results page (with the flash
messages of failed copies). -/
inductive Response where
  | modelError : Response
  | invalidInput : String → Response
  | page : List CandidateResult → List String → Response
deriving DecidableEq, Repr

/-- main.py `index` on a POST request.  A dotless secured filename of an
allowed file propagates as `Except.error` (the request dies with
`IndexError`); every other outcome is an `Except.ok` response. -/
def index (nlp : Option (String → String → ℚ)) (form : FormInput)
    (copyFail : Nat → Bool) : Except String Response :=
  match nlp with
  | none => .ok .modelError
  | some m =>
      match form.files with
      | [] => .ok (.invalidInput noResumesMsg)
      | f0 :: _ =>
          if f0.filename = "" then .ok (.invalidInput noResumesMsg)
          else
            let req := pyStrip form.requirements
            if req = "" then .ok (.invalidInput emptyJDMsg)
            else
              match computeMinExperience form with
              | .error msg => .ok (.invalidInput msg)
              | .ok minExp =>
                  match processFiles m form.threshold (form.criteria_toggle = "on")
                      minExp form.education req copyFail form.files 0 with
                  | .error e => .error e
                  | .ok (rs, es) => .ok (.page (rankSort rs) es)

/-! ## Decidable equality for `Except` results -/

instance {ε α : Type} [DecidableEq ε] [DecidableEq α] : DecidableEq (Except ε α)
  | .error a, .error b => if h : a = b then .isTrue (by rw [h]) else .isFalse (by simp [h])
  | .error _, .ok _ => .isFalse (by simp)
  | .ok _, .error _ => .isFalse (by simp)
  | .ok a, .ok b => if h : a = b then .isTrue (by rw [h]) else .isFalse (by simp [h])

/-! ## Claims -/

/-- Claim C2. For every input text, `find_experience` returns
`round(Y + M/12, 1)` where `Y` is the maximum number matched by the year
pattern (`0` if none) and `M` the maximum number matched by the month pattern
(`0` if none); in particular `find_experience "3 years 6 months" = 3.5`,
`find_experience "no experience mentioned" = 0`, and
`find_experience "2+ years, 5 years" = 5.0` (maximum of the occurrences,
not their sum). -/
theorem find_experience_spec :
    (∀ t : String,
        find_experience t =
          round1 (qmax ((scanYears t.data).map ratOfCapture) +
            qmax ((scanMonths t.data).map ratOfCapture) / 12)) ∧
      find_experience "3 years 6 months" = 7 / 2 ∧
      find_experience "no experience mentioned" = 0 ∧
      find_experience "2+ years, 5 years" = 5 := by
  refine ⟨fun t => ?_, by decide!, by decide!, by decide!⟩
  unfold find_experience
  rcases hy : scanYears t.data with _ | ⟨y, ys⟩ <;>
    rcases hm : scanMonths t.data with _ | ⟨mo, ms⟩ <;>
      simp [qmax]

/-- Claim C3. `find_education` is the union of up to three labels, each of the
three pattern groups contributing its label independently exactly when one of
its patterns matches the lowercased text; the groups are not mutually
exclusive, and a text containing both "B.Tech" and "PhD" yields exactly
`{UG, PG}`. -/
theorem find_education_spec :
    (∀ t : String,
        find_education t =
          (if ugFound t then {"UG"} else ∅) ∪
            ((if mastersFound t then {"Masters"} else ∅) ∪
              (if pgFound t then {"PG"} else ∅))) ∧
      (∀ t, "UG" ∈ find_education t ↔ ugFound t = true) ∧
      (∀ t, "Masters" ∈ find_education t ↔ mastersFound t = true) ∧
      (∀ t, "PG" ∈ find_education t ↔ pgFound t = true) ∧
      find_education "Has a B.Tech degree and a PhD" = {"UG", "PG"} := by
  refine ⟨fun _ => rfl, fun t => ?_, fun t => ?_, fun t => ?_, by decide⟩ <;>
    rcases h1 : ugFound t <;> rcases h2 : mastersFound t <;> rcases h3 : pgFound t <;>
      simp [find_education, h1, h2, h3]

/-- Claim C4, counterexample. The grading result when the model is unavailable
is byte-for-byte the same dictionary as the result for a genuine similarity
of `0` below the threshold, so no side channel lets the caller distinguish
the two cases. -/
theorem grade_no_side_channel_cex :
    grade_resume_nlp "r" "jd" none (3 / 5) =
        grade_resume_nlp "r" "jd" (some fun _ _ => 0) (3 / 5) ∧
      grade_resume_nlp "r" "jd" none (3 / 5) = ⟨false, 0⟩ := by
  exact ⟨by decide!, by decide!⟩

/-- Claim C4, amended. When the requirements text is empty or the model is
unavailable, `grade_resume_nlp` returns score `0` with `passed = False`
without throwing; but this result coincides with the one for a genuine
similarity of `0` below a positive threshold, so the caller cannot
distinguish "model unavailable" from "genuinely dissimilar". -/
theorem grade_unavailable_spec :
    (∀ r m θ, grade_resume_nlp r "" m θ = ⟨false, 0⟩) ∧
      (∀ r req θ, grade_resume_nlp r req none θ = ⟨false, 0⟩) ∧
      (∀ r req θ, 0 < θ →
        grade_resume_nlp r req none θ = grade_resume_nlp r req (some fun _ _ => 0) θ) := by
  have h0 : round3 0 = 0 := by decide!
  refine ⟨fun r m θ => ?_, fun r req θ => rfl, fun r req θ hθ => ?_⟩
  · cases m <;> simp [grade_resume_nlp]
  · by_cases h : req = "" <;>
      simp [grade_resume_nlp, h, not_le.mpr hθ, h0]

/-- Claim C4, witness. -/
theorem grade_unavailable_witness :
    grade_resume_nlp "a" "" (some fun _ _ => 1) (1 / 2) = ⟨false, 0⟩ ∧
      grade_resume_nlp "a" "b" none (1 / 2) = ⟨false, 0⟩ ∧
      grade_resume_nlp "a" "b" none (1 / 2) =
        grade_resume_nlp "a" "b" (some fun _ _ => 0) (1 / 2) :=
  ⟨grade_unavailable_spec.1 "a" (some fun _ _ => 1) (1 / 2),
    grade_unavailable_spec.2.1 "a" "b" (1 / 2),
    grade_unavailable_spec.2.2 "a" "b" (1 / 2) (by norm_num)⟩

/-- Claim C9. Acceptance compares the exact, unrounded similarity score with
the threshold, while the recorded score is rounded to 3 decimal places; for
the score/threshold pair `0.6004`/`0.6004` the document is accepted yet its
recorded score `0.6` is strictly below the threshold. -/
theorem score_rounding_spec :
    (∀ r req m θ, req ≠ "" →
        (((grade_resume_nlp r req (some m) θ).passed = true) ↔ θ ≤ m r req) ∧
          (grade_resume_nlp r req (some m) θ).similarity_score = round3 (m r req)) ∧
      (grade_resume_nlp "r" "q" (some fun _ _ => 1501 / 2500) (1501 / 2500)).passed = true ∧
      (grade_resume_nlp "r" "q" (some fun _ _ => 1501 / 2500)
        (1501 / 2500)).similarity_score < 1501 / 2500 := by
  refine ⟨fun r req m θ hreq => ?_, by decide!, by decide!⟩
  by_cases h : θ ≤ m r req <;> simp [grade_resume_nlp, hreq, h]

/-- Claim C9, witness. -/
theorem score_rounding_witness :
    (((grade_resume_nlp "a" "b" (some fun _ _ => 7 / 10) (1 / 2)).passed = true) ↔
        (1 / 2 : ℚ) ≤ 7 / 10) ∧
      (grade_resume_nlp "a" "b" (some fun _ _ => 7 / 10) (1 / 2)).similarity_score =
        round3 (7 / 10) :=
  score_rounding_spec.1 "a" "b" (fun _ _ => 7 / 10) (1 / 2) (by decide)

/-- Claim C1. For a processed document with an allowed extension whose
extracted text is non-empty (and whose secured filename still has an
extension, so that processing completes, with the non-empty requirements
text that `index` guarantees), an accepted result is produced if and only
if (when filters are enabled) its experience is at least the minimum and the
required education is a subset of its education levels, and the exact
similarity score is at least the threshold — `≤`, so a score exactly equal
to the threshold is accepted. -/
theorem candidate_result_iff (m : String → String → ℚ) (θ : ℚ) (fE : Bool)
    (minE : ℚ) (rE : Finset String) (req : String) (f : UploadedFile) (ext : String)
    (hallow : allowed_file f.filename = true)
    (hdot : afterLastDot (secure_filename f.filename) = some ext)
    (htext : extractedText f ext ≠ "")
    (hreq : req ≠ "") :
    (∃ d, processFile m θ fE minE rE req f = .ok (some d)) ↔
      ((fE = true →
          minE ≤ find_experience (extractedText f ext) ∧
            rE ⊆ find_education (extractedText f ext)) ∧
        θ ≤ m (extractedText f ext) req) := by
  have hg : ∀ text : String,
      (grade_resume_nlp text req (some m) θ).passed = true ↔ θ ≤ m text req := by
    intro text
    by_cases h : θ ≤ m text req <;> simp [grade_resume_nlp, hreq, h]
  unfold processFile
  rw [hallow, if_pos rfl]
  simp only [hdot, htext, if_false]
  by_cases h1 : fE = true ∧ find_experience (extractedText f ext) < minE
  · rw [if_pos h1]
    constructor
    · rintro ⟨d, hd⟩
      exact absurd hd (by simp)
    · rintro ⟨hf, -⟩
      exact absurd (hf h1.1).1 (not_le.mpr h1.2)
  · rw [if_neg h1]
    by_cases h2 : fE = true ∧ ¬ rE ⊆ find_education (extractedText f ext)
    · rw [if_pos h2]
      constructor
      · rintro ⟨d, hd⟩
        exact absurd hd (by simp)
      · rintro ⟨hf, -⟩
        exact absurd (hf h2.1).2 h2.2
    · rw [if_neg h2]
      by_cases h3 : (grade_resume_nlp (extractedText f ext) req (some m) θ).passed = true
      · rw [if_pos h3]
        refine ⟨fun _ => ⟨fun hfe => ?_, (hg _).mp h3⟩, fun _ => ⟨_, rfl⟩⟩
        constructor
        · by_contra hlt
          exact h1 ⟨hfe, not_le.mp hlt⟩
        · by_contra hsub
          exact h2 ⟨hfe, hsub⟩
      · rw [if_neg h3]
        constructor
        · rintro ⟨d, hd⟩
          exact absurd hd (by simp)
        · rintro ⟨-, hscore⟩
          exact absurd ((hg _).mpr hscore) h3

/-- Claim C1, witness. A document at exactly the threshold, with filters
enabled, is accepted. -/
theorem candidate_result_iff_witness :
    ∃ d, processFile (fun _ _ => 3 / 5) (3 / 5) true 2 {"UG"} "jd"
        ⟨"a.pdf", "5 years B.Tech", ""⟩ = .ok (some d) :=
  (candidate_result_iff (fun _ _ => 3 / 5) (3 / 5) true 2 {"UG"} "jd"
      ⟨"a.pdf", "5 years B.Tech", ""⟩ "pdf"
      (by decide) (by decide) (by decide) (by decide)).mpr (by decide!)

/-- Claim C10, counterexample. The filename `".pdf"` passes `allowed_file`,
yet werkzeug's `secure_filename` strips its leading dot, so the extension
lookup `original_filename.rsplit('.', 1)[1]` on the secured name `"pdf"` is
out of bounds: processing raises `IndexError` instead of silently skipping. -/
theorem extension_guard_cex :
    allowed_file ".pdf" = true ∧
      secure_filename ".pdf" = "pdf" ∧
      processFile (fun _ _ => 1) (1 / 2) false 0 ∅ "jd" ⟨".pdf", "resume text", ""⟩ =
        .error "IndexError" :=
  ⟨by decide, by decide, by decide⟩

/-- Claim C10, amended. Files failing the `allowed_file` guard are silently
skipped: no result, no counter change, no error; and for files passing the
guard the extension lookup on the *client* filename is in bounds.  But the
lookups actually performed (main.py lines 85 and 424) use the *secured*
filename, and they stay in bounds only when the secured name still contains
a dot — a filename such as `".pdf"` passes the guard yet crashes the request
with `IndexError`. -/
theorem extension_guard_spec :
    (∀ m θ fE minE rE req f, allowed_file f.filename = false →
        processFile m θ fE minE rE req f = .ok none) ∧
      (∀ m θ fE minE rE req o fs c f, allowed_file f.filename = false →
        processFiles m θ fE minE rE req o (f :: fs) c =
          processFiles m θ fE minE rE req o fs c) ∧
      (∀ s : String, allowed_file s = true → (afterLastDot s).isSome = true) ∧
      (∀ m θ fE minE rE req f ext, allowed_file f.filename = true →
        afterLastDot (secure_filename f.filename) = some ext →
        ∃ r, processFile m θ fE minE rE req f = .ok r) := by
  have hskip : ∀ (m : String → String → ℚ) θ fE minE rE req f,
      allowed_file f.filename = false → processFile m θ fE minE rE req f = .ok none := by
    intro m θ fE minE rE req f h
    unfold processFile
    rw [h]
    simp
  refine ⟨hskip, fun m θ fE minE rE req o fs c f h => ?_, fun s h => ?_,
    fun m θ fE minE rE req f ext hallow hdot => ?_⟩
  · conv_lhs => rw [processFiles]
    rw [hskip m θ fE minE rE req f h]
  · unfold allowed_file at h
    cases hd : afterLastDot s <;> simp [hd] at h ⊢
  · unfold processFile
    rw [hallow, if_pos rfl]
    simp only [hdot]
    by_cases h1 : extractedText f ext = ""
    · exact ⟨none, by simp [h1]⟩
    · simp only [h1, if_false]
      split
      · exact ⟨none, rfl⟩
      · split
        · exact ⟨none, rfl⟩
        · split
          · exact ⟨_, rfl⟩
          · exact ⟨none, rfl⟩

/-- Claim C10, witness. -/
theorem extension_guard_witness :
    processFile (fun _ _ => 1) (1 / 2) false 0 ∅ "jd" ⟨"notes.txt", "text", ""⟩ =
        .ok none ∧
      (afterLastDot "a.pdf").isSome = true ∧
      ∃ r, processFile (fun _ _ => 1) (1 / 2) false 0 ∅ "jd" ⟨"a.pdf", "text", ""⟩ =
        .ok r :=
  ⟨extension_guard_spec.1 (fun _ _ => 1) (1 / 2) false 0 ∅ "jd"
      ⟨"notes.txt", "text", ""⟩ (by decide),
    extension_guard_spec.2.2.1 "a.pdf" (by decide),
    extension_guard_spec.2.2.2 (fun _ _ => 1) (1 / 2) false 0 ∅ "jd"
      ⟨"a.pdf", "text", ""⟩ "pdf" (by decide) (by decide)⟩

/-- An accepted document's recorded extension is the one after the last dot
of its recorded (secured) filename. -/
theorem processFile_name_ext (m : String → String → ℚ) (θ : ℚ) (fE : Bool)
    (minE : ℚ) (rE : Finset String) (req : String) (f : UploadedFile)
    (d : AcceptedDoc) (h : processFile m θ fE minE rE req f = .ok (some d)) :
    afterLastDot d.name = some d.ext := by
  unfold processFile at h
  by_cases ha : allowed_file f.filename = true
  · rw [if_pos ha] at h
    rcases hd : afterLastDot (secure_filename f.filename) with _ | ext
    · simp only [hd] at h
      exact absurd h (by simp)
    · simp only [hd] at h
      split at h
      · exact absurd h (by simp)
      · split at h
        · exact absurd h (by simp)
        · split at h
          · exact absurd h (by simp)
          · split at h
            · obtain rfl : d = ⟨secure_filename f.filename, ext, _, _, _⟩ :=
                (Option.some_injective _ (Except.ok.inj h)).symm
              exact hd
            · exact absurd h (by simp)
  · rw [if_neg ha] at h
    exact absurd h (by simp)

/-- Claim C5. The n-th accepted document in submission order (1-indexed,
starting from counter value `c`) is assigned the name
`zero_pad(n, 6) ++ "_" ++ score(2 decimals) ++ "." ++ extension`; the
embedded sequence numbers `c + i + 1` are strictly increasing in submission
order and independent of the final rank order (the sort happens after all
names are assigned). -/
theorem assigned_name_spec (m : String → String → ℚ) (θ : ℚ) (fE : Bool)
    (minE : ℚ) (rE : Finset String) (req : String) (o : Nat → Bool) :
    ∀ (files : List UploadedFile) (c : Nat) (rs : List CandidateResult)
      (es : List String),
      processFiles m θ fE minE rE req o files c = .ok (rs, es) →
      ∀ i (h : i < rs.length), ∃ ext,
        afterLastDot ((rs.get ⟨i, h⟩).original_filename) = some ext ∧
          (rs.get ⟨i, h⟩).new_filename =
            mkNewName (c + i + 1) ((rs.get ⟨i, h⟩).score) ext := by
  intro files
  induction files with
  | nil =>
      intro c rs es hp i h
      simp only [processFiles, Except.ok.injEq, Prod.mk.injEq] at hp
      obtain ⟨rfl, rfl⟩ := hp
      exact absurd h (by simp)
  | cons f fs ih =>
      intro c rs es hp i h
      cases hpf : processFile m θ fE minE rE req f with
      | error e =>
          rw [processFiles, hpf] at hp
          exact absurd hp (by simp)
      | ok od =>
          cases od with
          | none =>
              rw [processFiles, hpf] at hp
              exact ih c rs es hp i h
          | some d =>
              rw [processFiles, hpf] at hp
              rcases hrec : processFiles m θ fE minE rE req o fs (c + 1) with e | ⟨rs', es'⟩
              · simp only [hrec] at hp
                exact absurd hp (by simp)
              · simp only [hrec, Except.ok.injEq, Prod.mk.injEq] at hp
                obtain ⟨rfl, rfl⟩ := hp
                rcases i with _ | i
                · exact ⟨d.ext, processFile_name_ext m θ fE minE rE req f d hpf, rfl⟩
                · obtain ⟨ext, h1, h2⟩ :=
                    ih (c + 1) rs' es' hrec i (Nat.lt_of_succ_lt_succ (by simpa using h))
                  refine ⟨ext, h1, ?_⟩
                  simp only [List.get_cons_succ]
                  rw [show c + (i + 1) + 1 = c + 1 + i + 1 by omega]
                  exact h2

/-- Claim C5, witness. -/
theorem assigned_name_witness :
    ∃ ext,
      afterLastDot ((([⟨"a.pdf", "000001_1.00.pdf", 1, 0, []⟩] :
            List CandidateResult).get ⟨0, by decide⟩).original_filename) = some ext ∧
        (([⟨"a.pdf", "000001_1.00.pdf", 1, 0, []⟩] :
            List CandidateResult).get ⟨0, by decide⟩).new_filename =
          mkNewName (0 + 0 + 1)
            ((([⟨"a.pdf", "000001_1.00.pdf", 1, 0, []⟩] :
              List CandidateResult).get ⟨0, by decide⟩).score) ext :=
  assigned_name_spec (fun _ _ => 1) (1 / 2) false 0 ∅ "jd" (fun _ => false)
    [⟨"a.pdf", "x", ""⟩] 0 [⟨"a.pdf", "000001_1.00.pdf", 1, 0, []⟩] []
    (by decide!) 0 (by decide)

/-- Claim C8. A failure while copying an accepted document to the output sink
does not change the result list at all (it is identical for any two copy
oracles, so in particular whether or not the copy succeeded), does not abort
the batch, and is reported per document by a flash message naming the file. -/
theorem copy_failure_spec :
    (∀ (m : String → String → ℚ) (θ : ℚ) (fE : Bool) (minE : ℚ)
        (rE : Finset String) (req : String) (o1 o2 : Nat → Bool)
        (files : List UploadedFile) (c : Nat),
        (processFiles m θ fE minE rE req o1 files c).map Prod.fst =
          (processFiles m θ fE minE rE req o2 files c).map Prod.fst) ∧
      (∀ (m : String → String → ℚ) (θ : ℚ) (fE : Bool) (minE : ℚ)
        (rE : Finset String) (req : String) (o : Nat → Bool)
        (files : List UploadedFile) (c : Nat) rs es,
        processFiles m θ fE minE rE req o files c = .ok (rs, es) →
        ∀ i (h : i < rs.length), o (c + i + 1) = true →
          copyErrorMsg ((rs.get ⟨i, h⟩).original_filename) ∈ es) := by
  constructor
  · intro m θ fE minE rE req o1 o2 files
    induction files with
    | nil => intro c; rfl
    | cons f fs ih =>
        intro c
        cases hpf : processFile m θ fE minE rE req f with
        | error e => rw [processFiles, processFiles, hpf]
        | ok od =>
            cases od with
            | none => rw [processFiles, processFiles, hpf]; exact ih c
            | some d =>
                rw [processFiles, processFiles, hpf]
                have h := ih (c + 1)
                rcases h1 : processFiles m θ fE minE rE req o1 fs (c + 1) with e1 | ⟨rs1, es1⟩ <;>
                  rcases h2 : processFiles m θ fE minE rE req o2 fs (c + 1) with e2 | ⟨rs2, es2⟩ <;>
                    rw [h1, h2] at h <;> simp_all [Except.map]
  · intro m θ fE minE rE req o files
    induction files with
    | nil =>
        intro c rs es hp i h
        simp only [processFiles, Except.ok.injEq, Prod.mk.injEq] at hp
        obtain ⟨rfl, rfl⟩ := hp
        exact absurd h (by simp)
    | cons f fs ih =>
        intro c rs es hp i h ho
        cases hpf : processFile m θ fE minE rE req f with
        | error e =>
            rw [processFiles, hpf] at hp
            exact absurd hp (by simp)
        | ok od =>
            cases od with
            | none =>
                rw [processFiles, hpf] at hp
                exact ih c rs es hp i h ho
            | some d =>
                rw [processFiles, hpf] at hp
                rcases hrec : processFiles m θ fE minE rE req o fs (c + 1) with e | ⟨rs', es'⟩
                · simp only [hrec] at hp
                  exact absurd hp (by simp)
                · simp only [hrec, Except.ok.injEq, Prod.mk.injEq] at hp
                  obtain ⟨rfl, rfl⟩ := hp
                  rcases i with _ | i
                  · have hc : c + 0 + 1 = c + 1 := rfl
                    rw [hc] at ho
                    simp [ho]
                  · have hmem :=
                      ih (c + 1) rs' es' hrec i (Nat.lt_of_succ_lt_succ (by simpa using h))
                        (by rw [show c + 1 + i + 1 = c + (i + 1) + 1 by omega]; exact ho)
                    exact List.mem_append_right _ hmem

/-- Claim C8, witness. -/
theorem copy_failure_witness :
    processFiles (fun _ _ => 1) (1 / 2) false 0 ∅ "jd" (fun _ => true)
        [⟨"a.pdf", "x", ""⟩] 0 = .ok ([⟨"a.pdf", "000001_1.00.pdf", 1, 0, []⟩],
          [copyErrorMsg "a.pdf"]) ∧
      copyErrorMsg ((([⟨"a.pdf", "000001_1.00.pdf", 1, 0, []⟩] :
          List CandidateResult).get ⟨0, by decide⟩).original_filename) ∈
        [copyErrorMsg "a.pdf"] :=
  ⟨by decide!,
    copy_failure_spec.2 (fun _ _ => 1) (1 / 2) false 0 ∅ "jd" (fun _ => true)
      [⟨"a.pdf", "x", ""⟩] 0 [⟨"a.pdf", "000001_1.00.pdf", 1, 0, []⟩]
      [copyErrorMsg "a.pdf"] (by decide!) 0 (by decide) (by decide)⟩

/-- `scoreLe` is transitive. -/
theorem scoreLe_trans : ∀ a b c : CandidateResult, scoreLe a b → scoreLe b c → scoreLe a c :=
  fun _ _ _ hab hbc =>
    decide_eq_true (le_trans (of_decide_eq_true hbc) (of_decide_eq_true hab))

/-- `scoreLe` is total. -/
theorem scoreLe_total : ∀ a b : CandidateResult, scoreLe a b || scoreLe b a := by
  intro a b
  rcases le_total b.score a.score with h | h <;> simp [scoreLe, h]

/-- Claim C6. The pipeline returns the accepted results sorted by recorded
similarity score in descending order with a stable sort: the returned list is
pairwise descending, results with equal scores keep their submission order
(filtering either list by a score value gives the same sublist), and after a
validated run `index` returns exactly the stable descending sort of the
accepted results with the collected copy-failure messages. -/
theorem ranked_results_spec :
    (∀ rs : List CandidateResult,
        (rankSort rs).Pairwise fun a b => b.score ≤ a.score) ∧
      (∀ (rs : List CandidateResult) (q : ℚ),
        (rankSort rs).filter (fun r => r.score == q) =
          rs.filter fun r => r.score == q) ∧
      (∀ (m : String → String → ℚ) (form : FormInput) (o : Nat → Bool)
        (f0 : UploadedFile) (fs : List UploadedFile) (minE : ℚ)
        (rs : List CandidateResult) (es : List String),
        form.files = f0 :: fs → f0.filename ≠ "" → pyStrip form.requirements ≠ "" →
        computeMinExperience form = .ok minE →
        processFiles m form.threshold (form.criteria_toggle = "on") minE
          form.education (pyStrip form.requirements) o form.files 0 = .ok (rs, es) →
        index (some m) form o = .ok (.page (rankSort rs) es)) := by
  refine ⟨fun rs => ?_, fun rs q => ?_, ?_⟩
  · exact (List.sorted_mergeSort scoreLe_trans scoreLe_total rs).imp
      fun hab => of_decide_eq_true hab
  · have hpw : (rs.filter fun r => r.score == q).Pairwise fun a b => scoreLe a b := by
      refine List.pairwise_of_forall_mem_list ?_
      intro a ha b hb
      have ha2 := (List.mem_filter.mp ha).2
      have hb2 := (List.mem_filter.mp hb).2
      refine decide_eq_true (le_of_eq ?_)
      rw [eq_of_beq hb2, eq_of_beq ha2]
    have hstable := List.sublist_mergeSort scoreLe_trans scoreLe_total hpw
      (List.filter_sublist rs)
    have hself : ((rs.filter fun r => r.score == q).filter fun r => r.score == q) =
        rs.filter fun r => r.score == q :=
      List.filter_eq_self.mpr fun a ha => (List.mem_filter.mp ha).2
    have hsub2 := hself ▸ hstable.filter (fun r : CandidateResult => r.score == q)
    have hperm := (List.mergeSort_perm rs scoreLe).filter fun r : CandidateResult => r.score == q
    exact (hsub2.eq_of_length hperm.length_eq.symm).symm
  · intro m form o f0 fs minE rs es hfiles hname hreq hmin hproc
    unfold index
    rw [hfiles] at hproc ⊢
    simp [hname, hreq, hmin, hproc]

/-- Claim C6, witness. -/
theorem ranked_results_witness :
    index (some fun _ _ => 1)
        { files := [⟨"a.pdf", "x", ""⟩], requirements := "jd", threshold := 1 / 2,
          criteria_toggle := "", experience_str := "", education := ∅ }
        (fun _ => false) =
      .ok (.page (rankSort [⟨"a.pdf", "000001_1.00.pdf", 1, 0, []⟩]) []) :=
  ranked_results_spec.2.2 (fun _ _ => 1)
    { files := [⟨"a.pdf", "x", ""⟩], requirements := "jd", threshold := 1 / 2,
      criteria_toggle := "", experience_str := "", education := ∅ }
    (fun _ => false) ⟨"a.pdf", "x", ""⟩ [] 0
    [⟨"a.pdf", "000001_1.00.pdf", 1, 0, []⟩] [] rfl (by decide) (by decide)
    (by decide) (by decide!)

/-- Claim C7, counterexample. A non-numeric minimum-experience value does
*not* make the pipeline refuse to run when filters are disabled: with
`experience_str = "abc"` (which `float` rejects) and the filter toggle off,
the pipeline runs and produces a result. -/
theorem invalid_input_cex :
    parseFloat? "abc" = none ∧
      index (some fun _ _ => 1)
          { files := [⟨"a.pdf", "x", ""⟩], requirements := "jd", threshold := 1 / 2,
            criteria_toggle := "", experience_str := "abc", education := ∅ }
          (fun _ => false) =
        .ok (.page [⟨"a.pdf", "000001_1.00.pdf", 1, 0, []⟩] []) :=
  ⟨by decide, by decide!⟩

/-- Claim C7, amended. An empty batch or an empty (stripped) requirements
text makes the pipeline refuse to run before processing any document,
producing an invalid-input response rather than results; a non-numeric,
non-empty minimum-experience value also does so, but only when filters are
enabled — with filters disabled the value is ignored and the pipeline runs. -/
theorem invalid_input_spec :
    (∀ (m : String → String → ℚ) (form : FormInput) (o : Nat → Bool),
        form.files = [] → index (some m) form o = .ok (.invalidInput noResumesMsg)) ∧
      (∀ (m : String → String → ℚ) (form : FormInput) (o : Nat → Bool)
        (f0 : UploadedFile) (fs : List UploadedFile),
        form.files = f0 :: fs → f0.filename ≠ "" → pyStrip form.requirements = "" →
        index (some m) form o = .ok (.invalidInput emptyJDMsg)) ∧
      (∀ (m : String → String → ℚ) (form : FormInput) (o : Nat → Bool)
        (f0 : UploadedFile) (fs : List UploadedFile),
        form.files = f0 :: fs → f0.filename ≠ "" → pyStrip form.requirements ≠ "" →
        form.criteria_toggle = "on" → form.experience_str ≠ "" →
        parseFloat? form.experience_str = none →
        index (some m) form o = .ok (.invalidInput invalidNumberMsg)) := by
  refine ⟨fun m form o hfiles => ?_, fun m form o f0 fs hfiles hname hreq => ?_,
    fun m form o f0 fs hfiles hname hreq hon hestr hparse => ?_⟩
  · unfold index
    rw [hfiles]
  · unfold index
    rw [hfiles]
    simp [hname, hreq]
  · unfold index
    rw [hfiles]
    have hmin : computeMinExperience form = .error invalidNumberMsg := by
      unfold computeMinExperience
      rw [if_pos hon, if_neg hestr, hparse]
    simp [hname, hreq, hmin]

/-- Claim C7, witness. -/
theorem invalid_input_witness :
    index (some fun _ _ => 1)
        { files := [], requirements := "jd", threshold := 1 / 2,
          criteria_toggle := "", experience_str := "", education := ∅ }
        (fun _ => false) = .ok (.invalidInput noResumesMsg) ∧
      index (some fun _ _ => 1)
          { files := [⟨"a.pdf", "x", ""⟩], requirements := "jd", threshold := 1 / 2,
            criteria_toggle := "on", experience_str := "abc", education := ∅ }
          (fun _ => false) = .ok (.invalidInput invalidNumberMsg) :=
  ⟨invalid_input_spec.1 (fun _ _ => 1)
      { files := [], requirements := "jd", threshold := 1 / 2,
        criteria_toggle := "", experience_str := "", education := ∅ }
      (fun _ => false) rfl,
    invalid_input_spec.2.2 (fun _ _ => 1)
      { files := [⟨"a.pdf", "x", ""⟩], requirements := "jd", threshold := 1 / 2,
        criteria_toggle := "on", experience_str := "abc", education := ∅ }
      (fun _ => false) ⟨"a.pdf", "x", ""⟩ [] rfl (by decide) (by decide) rfl
      (by decide) (by decide)⟩

end ResumeMatcher
